import Mathlib

/-!
Verification of the SportIdent station driver (`sireader`).

This file gives a shallow embedding of the pure protocol algorithms of the
driver — the CRC-16 codec, the card-number and time decoders, the frame
codec, the backup-memory reader and the autosend punch poller — and proves
or refutes the specification claims about them.

Bytes are modelled as natural numbers below 256, byte strings as `List ℕ`.
Python `datetime` values are modelled either as a field record (`PyDateTime`)
or, where only linear time arithmetic matters, as an integer count of
microseconds since an epoch whose day 0 is a Monday.
-/

namespace SIR

/-- `SIReader._to_int`: big-endian integer value of a raw byte string. -/
def toInt (s : List ℕ) : ℕ := s.foldl (fun a b => 256 * a + b) 0

/-! ### CRC-16 codec (`SIReader._crc`, `SIReader._crc_check`)

The Python code keeps `crc` and `val` as unbounded integers during the
16-round inner loop and masks to 16 bits only at the end; the model does the
same. `CRC_POLYNOM = 0x8005`, `CRC_BITF = 0x8000`. -/

/-- One round of the inner 16-iteration loop of `SIReader._crc`:
shift `crc` left, carry in the top (16th) bit of `val`, xor with the
polynomial when the top bit of `crc` was set, and shift `val` left. -/
def crcStep (cv : ℕ × ℕ) : ℕ × ℕ :=
  let crc := cv.1
  let val := cv.2
  let carry := if val &&& 32768 ≠ 0 then 1 else 0
  let crc1 := if crc &&& 32768 ≠ 0 then (2 * crc + carry) ^^^ 32773
              else 2 * crc + carry
  (crc1, 2 * val)

/-- The 16-round loop body of `SIReader._crc` for one 16-bit word `val`. -/
def crcWord (crc val : ℕ) : ℕ := (crcStep^[16] (crc, val)).1

/-- The zero padding applied by the `twochars` generator of `SIReader._crc`:
an empty string stays empty, an even-length string gets two zero bytes, an
odd-length one gets one. -/
def crcPadded (s : List ℕ) : List ℕ :=
  if s = [] then []
  else if s.length % 2 = 0 then s ++ [0, 0] else s ++ [0]

/-- The word values produced by the `twochars` generator combined with
`SIReader._to_int` on each 2-byte chunk. -/
def crcWords : List ℕ → List ℕ
  | a :: b :: rest => (256 * a + b) :: crcWords rest
  | [a] => [a]
  | [] => []

/-- `SIReader._crc`: the CRC-16 of a byte string, returned as its two bytes
(high, low). The guard in the source is `len(s) < 1`, i.e. only the empty
string short-circuits to `00 00`. -/
def si_crc (s : List ℕ) : List ℕ :=
  if s.length < 1 then [0, 0]
  else
    let c := ((crcWords (crcPadded (s.drop 2))).foldl crcWord (toInt (s.take 2)))
              &&& 65535
    [c >>> 8, c &&& 255]

/-- `SIReader._crc_check`. -/
def crc_check (s c : List ℕ) : Bool := si_crc s == c

/-! ### Card number decoding (`SIReader._decode_cardnr`) -/

/-- `SIReader._decode_cardnr` on a 4-byte input; `none` models the
`Unknown card series` exception raised for a nonzero leading byte. -/
def decodeCardnr (number : List ℕ) : Option ℕ :=
  if number.take 1 ≠ [0] then none
  else
    let nr := toInt ((number.drop 1).take 3)
    if nr < 500000 then
      let ret := toInt ((number.drop 2).take 2)
      if number.getD 1 0 < 2 then some ret
      else some (number.getD 1 0 * 100000 + ret)
    else some nr

/-! ### Time decoding (`SIReader._decode_time`)

A naive Python `datetime` is modelled as an integer count of microseconds
since an epoch whose day 0 is a Monday, so that `datetime.weekday()` is
`(t / 86400000000) % 7` with floor division (Lean `Int` `%` and `/` are
Euclidean, which for a positive divisor coincides with Python floor
division and nonnegative `%`). -/

/-- `reftime.replace(hour=0, minute=0, second=0, microsecond=0)`. -/
def midnight (t : ℤ) : ℤ := t - t % 86400000000

/-- `t.weekday()` (Monday = 0 … Sunday = 6). -/
def wday (t : ℤ) : ℤ := t / 86400000000 % 7

/-- `timedelta(hours=t.hour, minutes=t.minute, seconds=t.second)` in µs:
the whole-second part of the time of day. -/
def todSec (t : ℤ) : ℤ := t % 86400000000 / 1000000 * 1000000

/-- The weekday decoded from a PTD byte in `_decode_time`:
`(((ptd & 0b1110) >> 1) - 1) % 7` with Python semantics. -/
def ptdDow (p : ℕ) : ℤ := ((((p &&& 14) >>> 1 : ℕ) : ℤ) - 1) % 7

/-- `SIReader._decode_time`: decode a raw 2-byte time value (as an integer)
with an optional PTD byte against a reference time; `none` models the
`TIME_RESET` sentinel `0xEEEE`. -/
def decodeTime (raw : ℕ) (ptd : Option ℕ) (ref : ℤ) : Option ℤ :=
  if raw = 0xEEEE then none
  else
    match ptd with
    | some p =>
        let punchtime : ℤ :=
          if p &&& 1 = 1 then (raw : ℤ) * 1000000 + 43200000000
          else (raw : ℤ) * 1000000
        let dow := ptdDow p
        let ref2 :=
          if wday ref = dow ∧ todSec ref < punchtime then ref - 7 * 86400000000
          else ref - (wday ref - dow) % 7 * 86400000000
        some (midnight ref2 + punchtime)
    | none =>
        let punchtime : ℤ := (raw : ℤ) * 1000000
        let refDay := midnight ref
        let refHour := ref - refDay
        if refHour < 43200000000 then
          if punchtime < refHour then some (refDay + punchtime)
          else some (refDay - 43200000000 + punchtime)
        else
          if punchtime < refHour - 43200000000 then
            some (refDay + 43200000000 + punchtime)
          else some (refDay + punchtime)

end SIR

/-! ## Claims C4 and C3 -/

/-- C4: the claim states `_crc` of any single-byte input is `00 00`, matching
the source comment "return value for 1 or no data byte is 0"; but the guard
`len(s) < 1` only catches the empty string, so `_crc(b"\x53")` is `00 53`,
not `00 00`. This theorem evaluates the code at the failing input. -/
theorem c4_crc_single_byte_not_zero :
    SIR.si_crc [0x53] = [0x00, 0x53] ∧ SIR.si_crc [0x53] ≠ [0x00, 0x00] := by
  constructor <;> decide

/-- C3 counterexample: the SI5 and SI6 result ranges of `_decode_cardnr` are
not disjoint at the 500000 threshold. The input `00 05 00 00` has low three
bytes `0x050000 = 327680 < 500000`, so it takes the SI5 branch and returns
`5 * 100000 + 0 = 500000`; the input `00 07 A1 20` has low three bytes
exactly `500000`, takes the SI6 branch, and also returns `500000`. -/
theorem c3_ranges_not_disjoint :
    SIR.toInt [5, 0, 0] < 500000 ∧
    SIR.decodeCardnr [0, 5, 0, 0] = some 500000 ∧
    500000 ≤ SIR.toInt [7, 0xA1, 0x20] ∧
    SIR.decodeCardnr [0, 7, 0xA1, 0x20] = some 500000 := by
  refine ⟨by decide, by decide, by decide, by decide⟩

/-- Normal form of `_decode_cardnr` on a 4-byte input with leading zero. -/
theorem decodeCardnr_cons (b1 b2 b3 : ℕ) :
    SIR.decodeCardnr [0, b1, b2, b3] =
      if 256 * (256 * b1 + b2) + b3 < 500000 then
        if b1 < 2 then some (256 * b2 + b3)
        else some (b1 * 100000 + (256 * b2 + b3))
      else some (256 * (256 * b1 + b2) + b3) := by
  simp [SIR.decodeCardnr, SIR.toInt]

/-- C3 (amended): `_decode_cardnr` fails on a nonzero leading byte; otherwise
with low three bytes below 500000 it returns the low two bytes when the
series byte is below 2 and `series * 100000 + low2` otherwise, and with low
three bytes at least 500000 it returns the low three bytes.  The SI5 and SI6
result ranges are disjoint at the 500000 threshold provided the series byte
is at most 4 (the highest technically possible on an SI5); for series bytes
5–7 the SI5 branch can return values ≥ 500000. -/
theorem c3_decode_cardnr_spec (b0 b1 b2 b3 : ℕ)
    (h1 : b1 < 256) (h2 : b2 < 256) (h3 : b3 < 256) :
    (b0 ≠ 0 → SIR.decodeCardnr [b0, b1, b2, b3] = none) ∧
    (let nr := b1 * 65536 + b2 * 256 + b3
     let low2 := b2 * 256 + b3
     (nr < 500000 →
        SIR.decodeCardnr [0, b1, b2, b3] =
          some (if b1 < 2 then low2 else b1 * 100000 + low2)) ∧
     (500000 ≤ nr → SIR.decodeCardnr [0, b1, b2, b3] = some nr) ∧
     (nr < 500000 → b1 ≤ 4 →
        ∀ v, SIR.decodeCardnr [0, b1, b2, b3] = some v → v < 500000) ∧
     (500000 ≤ nr →
        ∀ v, SIR.decodeCardnr [0, b1, b2, b3] = some v → 500000 ≤ v)) := by
  refine ⟨fun hb0 => ?_, ?_, ?_, ?_, ?_⟩
  · simp [SIR.decodeCardnr, hb0]
  · intro hlt
    rw [decodeCardnr_cons, if_pos (by omega)]
    split_ifs with hb
    · exact congrArg some (by ring)
    · exact congrArg some (by ring)
  · intro hge
    rw [decodeCardnr_cons, if_neg (by omega)]
    exact congrArg some (by ring)
  · intro hlt hb1 v hv
    rw [decodeCardnr_cons, if_pos (by omega)] at hv
    split_ifs at hv with hb <;> (injection hv with hv; omega)
  · intro hge v hv
    rw [decodeCardnr_cons, if_neg (by omega)] at hv
    injection hv with hv; omega

/-- Witness for C3: the spec scenario S3 card bytes `00 01 20 5B` decode to
`8283` (series 1 < 2, low two bytes `0x205B`). -/
theorem c3_decode_cardnr_spec_witness :
    SIR.decodeCardnr [0, 1, 0x20, 0x5B] = some 8283 := by
  have h := (c3_decode_cardnr_spec 0 1 0x20 0x5B (by decide) (by decide)
      (by decide)).2.1 (by decide)
  simpa using h

/-! ## Claim C2 -/

set_option maxRecDepth 4096 in
/-- Arithmetic form of the bit operations of `_decode_time` on a byte. -/
theorem ptd_bit_facts : ∀ p < 256,
    ((p &&& 14) >>> 1 = p / 2 % 8 ∧ p &&& 1 = p % 2 : Prop) := by decide

/-- C2 counterexample: as stated over every non-sentinel raw 2-byte value the
claim fails. With `raw = 0xFFFF` (65535 s, beyond the documented 0..43199
half-day range) and a reference time at 01:00, `_decode_time` without a PTD
byte returns 06:12:15 of the same day, which is later than the reference
time. Moreover even for an in-range raw value (3600 s) whose seconds equal
the reference's time of day exactly, the result is exactly 12 hours before
the reference, so `ref − result < 12h` also fails. -/
theorem c2_counterexample :
    (SIR.decodeTime 65535 none 3600000000 = some 22335000000 ∧
      ¬ (22335000000 : ℤ) ≤ 3600000000) ∧
    (SIR.decodeTime 3600 none 3600000000 = some (-39600000000) ∧
      ¬ (3600000000 : ℤ) - (-39600000000) < 43200000000) := by
  refine ⟨⟨by decide, by decide⟩, ⟨by decide, by decide⟩⟩

/-- C2 (amended): for every raw 2-byte time whose value is a valid half-day
second count (below 43200, hence never the sentinel `0xEEEE`) and every
reference time, `_decode_time` returns a result that is at most the
reference time; when a PTD byte is supplied the result's weekday equals the
weekday decoded from the PTD byte; and when no PTD byte is supplied the
reference minus the result is at most 12 hours (equality occurring exactly
when the punch seconds equal the reference's whole-second time of day
modulo 12 hours). -/
theorem c2_decode_time_spec (raw : ℕ) (ptd : Option ℕ) (ref t : ℤ)
    (hraw : raw < 43200) (hp : ∀ p ∈ ptd, p < 256)
    (ht : SIR.decodeTime raw ptd ref = some t) :
    t ≤ ref ∧ (∀ p ∈ ptd, SIR.wday t = SIR.ptdDow p) ∧
      (ptd = none → ref - t ≤ 43200000000) := by
  have hne : raw ≠ 61166 := by omega
  cases ptd with
  | none =>
      simp only [SIR.decodeTime, SIR.midnight, if_neg hne] at ht
      refine ⟨?_, by simp, fun _ => ?_⟩ <;>
        (split_ifs at ht <;> (injection ht with ht; omega))
  | some p =>
      have hp256 : p < 256 := hp p rfl
      obtain ⟨hb14, hb1⟩ := ptd_bit_facts p hp256
      refine ⟨?_, ?_, by simp⟩
      · simp only [SIR.decodeTime, SIR.midnight, SIR.todSec, SIR.wday,
          SIR.ptdDow, hb14, hb1, if_neg hne] at ht
        split_ifs at ht <;> (injection ht with ht; omega)
      · intro q hq
        rw [Option.mem_some_iff] at hq
        subst hq
        simp only [SIR.decodeTime, SIR.midnight, SIR.todSec, SIR.wday,
          SIR.ptdDow, hb14, hb1, if_neg hne] at ht ⊢
        split_ifs at ht <;> (injection ht with ht; omega)

/-- Witness for C2 (amended), at the spec scenario S5: raw `0x1C20` (7200 s),
PTD byte `0x05` (PM, weekday bits Tuesday), reference Tuesday 10:00 of epoch
week; the decoded punch is the previous Tuesday 14:00. -/
theorem c2_decode_time_spec_witness :
    (-468000000000 : ℤ) ≤ 122400000000 ∧
      (∀ p ∈ (some 5 : Option ℕ), SIR.wday (-468000000000) = SIR.ptdDow p) ∧
      ((some 5 : Option ℕ) = none →
        (122400000000 : ℤ) - (-468000000000) ≤ 43200000000) :=
  c2_decode_time_spec 7200 (some 5) 122400000000 (-468000000000)
    (by decide) (by intro p hp; simp at hp; subst hp; decide) (by decide)

/-! ## Claim C5 -/

namespace SIR

/-- The weekday expression in the legacy branch of `read_backup`, exactly as
Python parses the source text `((punch[BUL_PTD] & 0x0E) >> 1 - 1) % 7`:
the shift amount is `1 - 1 = 0`, so the value is `(ptd & 14) % 7`. -/
def legacyWeekday (ptd : ℕ) : ℕ := ((ptd &&& 14) >>> (1 - 1)) % 7

end SIR

/-- C5: the claim says the legacy-protocol weekday in `read_backup` equals
the `_decode_time` formula `(((ptd >> 1) & 7) - 1) mod 7`. It does not: the
source `>> 1 - 1` binds as `>> (1 - 1)`, so `read_backup` computes
`(ptd & 14) % 7`. At `ptd = 0` the code yields `0` while the `_decode_time`
formula yields `6` (Sunday). -/
theorem c5_weekday_formula_mismatch :
    SIR.legacyWeekday 0 = 0 ∧ SIR.ptdDow 0 = 6 ∧
      ((SIR.legacyWeekday 0 : ℤ) ≠ SIR.ptdDow 0) ∧
      (∀ ptd : ℕ, SIR.legacyWeekday ptd = (ptd &&& 14) % 7) :=
  ⟨rfl, by decide, by decide, fun _ => rfl⟩

/-! ## Claim C7 -/

namespace SIR

/-- The `GET_BACKUP` request sizes issued by the paging loop of
`read_backup` for `remaining = end_ptr - read_ptr` bytes still to fetch:
`0x80` per request, or the whole remainder when it is below `0x80`. -/
def backupChunks (remaining : ℕ) : List ℕ :=
  if remaining = 0 then []
  else if remaining < 128 then [remaining]
  else 128 :: backupChunks (remaining - 128)
termination_by remaining
decreasing_by omega

/-- The number of records emitted by the record loop of `read_backup` over a
buffer of `L` bytes with record size `step` (`BUX_SIZE = 8` extended,
`BUL_SIZE = 6` legacy): `ii` starts at 0 and advances by `step` while
`ii < L`. The `step = 0` guard is only for totality; the source uses 6/8. -/
def recCount (step L : ℕ) : ℕ :=
  if L = 0 ∨ step = 0 then 0 else 1 + recCount step (L - step)
termination_by L
decreasing_by omega

end SIR

theorem backupChunks_sum (r : ℕ) : (SIR.backupChunks r).sum = r := by
  induction r using Nat.strong_induction_on with
  | _ r ih =>
    rw [SIR.backupChunks]
    split_ifs with h0 hlt
    · simp [h0]
    · simp
    · rw [List.sum_cons, ih (r - 128) (by omega)]
      omega

theorem backupChunks_le (r : ℕ) : ∀ c ∈ SIR.backupChunks r, 0 < c ∧ c ≤ 128 := by
  induction r using Nat.strong_induction_on with
  | _ r ih =>
    rw [SIR.backupChunks]
    split_ifs with h0 hlt
    · simp
    · intro c hc
      simp at hc
      omega
    · intro c hc
      rcases List.mem_cons.mp hc with h | h
      · omega
      · exact ih (r - 128) (by omega) c h

theorem recCount_of_dvd (step L : ℕ) (hs : 0 < step) (hd : step ∣ L) :
    SIR.recCount step L = L / step := by
  obtain ⟨k, rfl⟩ := hd
  induction k with
  | zero => rw [SIR.recCount]; simp
  | succ n ihn =>
      rw [SIR.recCount]
      split_ifs with h
      · rcases h with h | h
        · rcases Nat.mul_eq_zero.mp h with h1 | h1 <;> omega
        · omega
      · rw [Nat.mul_succ, Nat.add_sub_cancel, ihn,
          Nat.add_div_right _ hs, Nat.mul_div_cancel_left _ hs]
        omega

/-- C7: for every `end_ptr > 0x100`, assuming each `GET_BACKUP` response
carries its header plus exactly the requested number of payload bytes, the
paging loop of `read_backup` issues requests of `min(0x80, end_ptr −
read_ptr)` bytes starting at `read_ptr = 0x100` (each request is between 1
and 0x80 bytes and they sum to `end_ptr − 0x100`), and the record loop
emits exactly `(end_ptr − 0x100) / record_size` records, with record size 8
in extended protocol and 6 in legacy protocol (the claim's exact division
presupposes a record-aligned backup pointer). -/
theorem c7_backup_paging (endPtr step : ℕ) (_hend : 0x100 < endPtr)
    (hstep : step = 8 ∨ step = 6) (hdvd : step ∣ (endPtr - 0x100)) :
    (SIR.backupChunks (endPtr - 0x100)).sum = endPtr - 0x100 ∧
    (∀ c ∈ SIR.backupChunks (endPtr - 0x100), 0 < c ∧ c ≤ 0x80) ∧
    SIR.recCount step (endPtr - 0x100) = (endPtr - 0x100) / step :=
  ⟨backupChunks_sum _, backupChunks_le _,
    recCount_of_dvd step _ (by omega) hdvd⟩

/-- Witness for C7: `end_ptr = 0x190` fetches `0x90 = 144` bytes (one full
`0x80` request and one of `0x10`) and emits 18 extended-protocol records. -/
theorem c7_backup_paging_witness :
    (SIR.backupChunks (0x190 - 0x100)).sum = 0x190 - 0x100 ∧
    (∀ c ∈ SIR.backupChunks (0x190 - 0x100), 0 < c ∧ c ≤ 0x80) ∧
    SIR.recCount 8 (0x190 - 0x100) = (0x190 - 0x100) / 8 :=
  c7_backup_paging 0x190 8 (by decide) (Or.inl rfl) (by decide)

/-! ## Claims C8 and C9: the frame codec

`_send_command` assembles `STX CMD LEN PARAMS CRC ETX` (the model omits the
optional WAKEUP preamble, as with `skipwakeup`); `_read_command` parses the
response layout `STX CMD LEN STATION(2) DATA(LEN−2) CRC(2) ETX`, updating
the cached station code as soon as the station bytes are read, before the
ETX and CRC checks. The serial stream is modelled as a list of bytes;
`read(n)` takes up to `n` bytes, returning fewer when the stream ends. -/

namespace SIR

/-- Parse errors of `_read_command`: no byte available (`SIReaderTimeout`),
NAK (`Invalid command or parameter`), wrong start byte, missing ETX, CRC
mismatch; `short` stands for the byte-by-byte reads running off the end of
the stream before the station bytes (the source would fail reading them). -/
inductive ReadErr
  | timeout | nak | badStart | noEtx | badCrc | short
deriving DecidableEq, Repr

/-- `SIReader._send_command` frame assembly (without the WAKEUP preamble):
`STX + cmd + len(params) + params + crc + ETX`. -/
def sendFrame (cmd : ℕ) (params : List ℕ) : List ℕ :=
  let commandString := cmd :: params.length :: params
  2 :: (commandString ++ si_crc commandString ++ [3])

/-- `SIReader._read_command` on a byte stream, with the cached station code
as explicit state: returns the updated station code and either `(cmd, data)`
or the error raised. A leading WAKEUP byte is skipped; an empty read is a
timeout; NAK and non-STX bytes fail; then `cmd`, `len`, two station bytes
(updating the station code), `len − 2` data bytes, two CRC bytes and the
ETX byte are read, and the ETX and CRC checks run in that order. -/
def readCommand (stream : List ℕ) (station0 : ℕ) :
    ℕ × Except ReadErr (ℕ × List ℕ) :=
  let s := match stream with
    | b :: rest => if b = 255 then rest else stream
    | [] => stream
  match s with
  | [] => (station0, .error .timeout)
  | c :: rest =>
    if c = 21 then (station0, .error .nak)
    else if c ≠ 2 then (station0, .error .badStart)
    else
      match rest with
      | cmd :: len :: tail =>
        let stationBytes := tail.take 2
        let station := toInt stationBytes
        let afterStation := tail.drop 2
        let data := afterStation.take (len - 2)
        let afterData := afterStation.drop (len - 2)
        let crc := afterData.take 2
        let etx := (afterData.drop 2).take 1
        if etx ≠ [3] then (station, .error .noEtx)
        else if ¬ crc_check (cmd :: len :: stationBytes ++ data) crc then
          (station, .error .badCrc)
        else (station, .ok (cmd, data))
      | _ => (station0, .error .short)

end SIR

/-- `_crc` always returns exactly two bytes. -/
theorem si_crc_length (s : List ℕ) : (SIR.si_crc s).length = 2 := by
  unfold SIR.si_crc
  split <;> simp

/-- C8 counterexample: decoding a frame produced by the request encoder does
not return the params that were encoded. Encoding `GET_SYS_VAL (0x83)` with
params `00 80` and parsing the frame succeeds the ETX and CRC checks, but
returns data `[]`, not `[0x00, 0x80]`: the parser consumes the first two
param bytes as the station code (here `0x0080 = 128`). -/
theorem c8_counterexample :
    SIR.readCommand (SIR.sendFrame 0x83 [0x00, 0x80]) 0 =
      (128, .ok (0x83, [])) ∧ ([] : List ℕ) ≠ [0x00, 0x80] := by
  constructor
  · set_option maxRecDepth 8192 in rfl
  · decide

/-- General shape of `_read_command` on a full frame
`STX cmd len s1 s2 data crc etx`: the station code is taken from the two
station bytes before the ETX and CRC checks run. -/
theorem readCommand_frame (cmd len s1 s2 etxb s0 : ℕ) (data crcb : List ℕ)
    (hdata : data.length = len - 2) (hcrc : crcb.length = 2) :
    SIR.readCommand (2 :: cmd :: len :: s1 :: s2 :: (data ++ crcb ++ [etxb]))
        s0 =
      (256 * s1 + s2,
        if etxb ≠ 3 then .error .noEtx
        else if ¬ SIR.crc_check (cmd :: len :: s1 :: s2 :: data) crcb then
          .error .badCrc
        else .ok (cmd, data)) := by
  have htake : (data ++ (crcb ++ [etxb])).take (len - 2) = data := by
    rw [← hdata]; exact List.take_left _ _
  have hdrop : (data ++ (crcb ++ [etxb])).drop (len - 2) = crcb ++ [etxb] := by
    rw [← hdata]; exact List.drop_left _ _
  have hctake : (crcb ++ [etxb]).take 2 = crcb := by
    rw [← hcrc]; exact List.take_left _ _
  have hetx3 : (data ++ (crcb ++ [etxb])).drop (len - 2 + 2) = [etxb] := by
    rw [← List.append_assoc]
    have hl : len - 2 + 2 = (data ++ crcb).length := by simp [hdata, hcrc]
    rw [hl, List.drop_left]
  have htake1 : ∀ x : ℕ, List.take 1 [x] = [x] := fun _ => rfl
  simp only [SIR.readCommand, List.append_assoc]
  norm_num [SIR.toInt]
  rw [htake, hdrop, hctake, hetx3]
  simp only [htake1, List.cons.injEq, and_true]
  split_ifs <;> rfl

/-- C8 (amended): parsing a frame assembled by the request encoder (without
the wake-up byte) with `_read_command` succeeds the ETX and CRC checks, but
the parser consumes the first two parameter bytes as the response station
code, so it yields `(cmd, params minus its first two bytes)` and caches the
station code `256 * params[0] + params[1]` — not the full params. This needs
at least two parameter bytes; with fewer, the reads misalign and the parse
fails. -/
theorem c8_frame_roundtrip (cmd s0 p0 p1 : ℕ) (ps : List ℕ)
    (_hcmd : cmd < 256) (_hlen : ps.length + 2 ≤ 255) :
    SIR.readCommand (SIR.sendFrame cmd (p0 :: p1 :: ps)) s0 =
      (256 * p0 + p1, .ok (cmd, ps)) := by
  have hfr : SIR.sendFrame cmd (p0 :: p1 :: ps) =
      2 :: cmd :: (ps.length + 2) :: p0 :: p1 ::
        (ps ++ SIR.si_crc (cmd :: (ps.length + 2) :: p0 :: p1 :: ps) ++ [3]) := by
    simp [SIR.sendFrame]
  rw [hfr, readCommand_frame cmd (ps.length + 2) p0 p1 3 s0 ps _
    (by omega) (si_crc_length _)]
  simp [SIR.crc_check]

/-- Witness for C8 (amended): the scenario-S2 style command `SET_MS (0xF0)`
with params `4D 4D 00`: the parse returns data `[0x00]` (params minus two
bytes) and station code `0x4D4D`. -/
theorem c8_frame_roundtrip_witness :
    SIR.readCommand (SIR.sendFrame 0xF0 [0x4D, 0x4D, 0x00]) 0 =
      (256 * 0x4D + 0x4D, .ok (0xF0, [0x00])) :=
  c8_frame_roundtrip 0xF0 0 0x4D 0x4D [0x00] (by decide) (by decide)

/-- C9: for every response frame that begins with STX — whatever its ETX
byte and CRC bytes are — `_read_command` sets the cached station code to
the big-endian value of the two station bytes; in particular the update
persists when the call then fails because the ETX byte is wrong (and, by
the arbitrary `crcb`, when the CRC check fails). -/
theorem c9_station_code_updated (cmd len s1 s2 etxb s0 : ℕ)
    (data crcb : List ℕ) (_hlen : 2 ≤ len) (hdata : data.length = len - 2)
    (hcrc : crcb.length = 2) :
    (SIR.readCommand (2 :: cmd :: len :: s1 :: s2 ::
        (data ++ crcb ++ [etxb])) s0).1 = 256 * s1 + s2 ∧
    (etxb ≠ 3 →
      (SIR.readCommand (2 :: cmd :: len :: s1 :: s2 ::
          (data ++ crcb ++ [etxb])) s0).2 = .error .noEtx) := by
  rw [readCommand_frame cmd len s1 s2 etxb s0 data crcb hdata hcrc]
  constructor
  · rfl
  · intro h
    simp [h]

/-- Witness for C9: a frame with station bytes `00 2A`, a wrong CRC and a
wrong ETX byte still caches station code 42, and the call fails on the ETX
check. -/
theorem c9_station_code_updated_witness :
    (SIR.readCommand (2 :: 0xF0 :: 3 :: 0 :: 0x2A ::
        ([0x4D] ++ [0, 0] ++ [7])) 0).1 = 256 * 0 + 0x2A ∧
    ((7 : ℕ) ≠ 3 →
      (SIR.readCommand (2 :: 0xF0 :: 3 :: 0 :: 0x2A ::
          ([0x4D] ++ [0, 0] ++ [7])) 0).2 = .error .noEtx) :=
  c9_station_code_updated 0xF0 3 0 0x2A 7 0 [0x4D] [0, 0]
    (by decide) (by decide) (by decide)

/-! ## Claim C6: the autosend punch poller (`SIReaderControl.poll_punch`)

The incoming frame stream is modelled as a list of events (a decoded frame
or a read timeout); the `GET_BACKUP` round-trips of gap recovery
(`_read_punch`) are abstracted by an oracle from backup offsets to decoded
punches. In the source the `raise SIReaderException("Unexpected command …")`
sits in the `else` clause of a `while True` loop, which only runs when the
loop condition becomes false — never — so it is dead code (it also uses the
unimported name `byte2int`); every frame, whatever its command byte, falls
through to `punches.append`, which decodes a card number from `data[0:4]`
and a time from `data[5:7]`. -/

namespace SIR

/-- One read of `_read_command` inside `poll_punch`: either a decoded frame
`(cmd, data)` or a `SIReaderTimeout`. -/
inductive PollEvent
  | timeout
  | frame (cmd : ℕ) (data : List ℕ)

/-- Errors `poll_punch` can actually raise: `_decode_cardnr` on a frame
whose `data[0] ≠ 0` (`Unknown card series`), or blocking forever when the
event stream is exhausted without a timeout. -/
inductive PollErr
  | unknownSeries | blocked
deriving DecidableEq, Repr

/-- The gap-recovery loop of `poll_punch`:
`while next_offset < cur_offset: punches.append(read_punch(next_offset));
next_offset += REC_LEN` with `REC_LEN = 8`. -/
def recoverGaps (readPunchAt : ℕ → ℕ × Option ℤ) (off cur : ℕ) :
    List (ℕ × Option ℤ) :=
  if off < cur then readPunchAt off :: recoverGaps readPunchAt (off + 8) cur
  else []
termination_by cur - off
decreasing_by omega

/-- `SIReaderControl.poll_punch`'s read loop. `ref` is the default reference
time (`now + 2h`) used by `_decode_time`; `readPunchAt` abstracts
`_read_punch`. On a timeout event the accumulated punches are returned. For
every frame: if its command is `C_TRANS_REC (0xD3)` the current offset is
read from `data[8:11]` and any gap from the remembered next offset is
recovered from backup; then — for any command byte — a punch decoded from
`data[0:4]` and `data[5:7]` is appended. -/
def pollPunch (ref : ℤ) (readPunchAt : ℕ → ℕ × Option ℤ) :
    List PollEvent → Option ℕ → List (ℕ × Option ℤ) →
    Except PollErr (List (ℕ × Option ℤ))
  | [], _, _ => .error .blocked
  | .timeout :: _, _, acc => .ok acc
  | .frame cmd data :: rest, nextOffset, acc =>
      let upd : List (ℕ × Option ℤ) × Option ℕ :=
        if cmd = 0xD3 then
          let cur := toInt ((data.drop 8).take 3)
          match nextOffset with
          | some off => (recoverGaps readPunchAt off cur, some (cur + 8))
          | none => ([], some (cur + 8))
        else ([], nextOffset)
      match decodeCardnr (data.take 4) with
      | none => .error .unknownSeries
      | some card =>
          pollPunch ref readPunchAt rest upd.2
            (acc ++ upd.1 ++ [(card, decodeTime (toInt ((data.drop 5).take 2)) none ref)])

end SIR

/-- C6: the claim says `poll_punch` fails with an unexpected-command error on
any frame whose command byte is not `C_TRANS_REC (0xD3)`. It does not: the
raise is dead code, and a non-`0xD3` frame (here an `SI_REM (0xE7)` event
frame) is decoded as a punch and returned when the next read times out. The
"returns the accumulated punches on timeout" half does hold, as the empty
poll shows. -/
theorem c6_unexpected_command_not_raised :
    (0xE7 : ℕ) ≠ 0xD3 ∧
    SIR.pollPunch 0 (fun _ => (0, none))
        [.frame 0xE7 [0, 0, 0x30, 0x39, 0, 0, 60, 0], .timeout] none [] =
      .ok [(12345, some (-43140000000))] ∧
    SIR.pollPunch 0 (fun _ => (0, none)) [.timeout] none [] = .ok [] := by
  refine ⟨by decide, by rfl, rfl⟩

/-! ## Claim C1: extended-protocol backup record decoding

`read_backup` (extended branch) decodes an 8-byte record
`CN[3] YM MDAP SECS[2] MS` into `(datetime, card number, error tag)`. The
Python `datetime`/`timedelta` arithmetic is modelled with the proleptic
Gregorian calendar: `toOrdinal`/`fromOrdinal` mirror `date.toordinal` and
`date.fromordinal` (days since 0001-01-01 = ordinal 1). The fractional
microseconds `1e6 * MS / 256` passed to `timedelta` are rounded half to
even, as CPython rounds float microseconds (the float value `MS * 15625/4`
is exact, so no double-rounding occurs). -/

namespace SIR

/-- Gregorian leap year (as in Python `calendar`/`datetime`). -/
def isLeap (y : ℕ) : Bool :=
  y % 4 == 0 && (!(y % 100 == 0) || y % 400 == 0)

/-- Days in a month (1..12) of year `y`; only queried with valid months. -/
def daysInMonth (y m : ℕ) : ℕ :=
  if m = 2 then (if isLeap y then 29 else 28)
  else if m = 4 ∨ m = 6 ∨ m = 9 ∨ m = 11 then 30
  else 31

/-- Days before January 1 of year `y` (year 1 is day 0). -/
def daysBeforeYear (y : ℕ) : ℕ :=
  (y - 1) * 365 + (y - 1) / 4 - (y - 1) / 100 + (y - 1) / 400

/-- Days in year `y` before month `m`. -/
def daysBeforeMonth (y m : ℕ) : ℕ :=
  (List.range (m - 1)).foldl (fun a i => a + daysInMonth y (i + 1)) 0

/-- `date(y, m, d).toordinal()`. -/
def toOrdinal (y m d : ℕ) : ℕ := daysBeforeYear y + daysBeforeMonth y m + d

/-- Month and day of month from a 0-based day `d0` of year `y`, scanning
months starting at `m` with `12 - m` as structural fuel (month 12 absorbs
any remainder; valid ordinals never reach that case with days left over). -/
def monthFromDaysAux (y : ℕ) : ℕ → ℕ → ℕ → ℕ × ℕ
  | 0, m, d0 => (m, d0 + 1)
  | fuel + 1, m, d0 =>
      if d0 < daysInMonth y m then (m, d0 + 1)
      else monthFromDaysAux y fuel (m + 1) (d0 - daysInMonth y m)

/-- Month and day of month from a 0-based day `d0` of year `y`. -/
def monthFromDays (y m d0 : ℕ) : ℕ × ℕ := monthFromDaysAux y (12 - m) m d0

/-- `date.fromordinal`: year, month, day from an ordinal (400/100/4/1-year
era decomposition as in CPython `_ord2ymd`). -/
def fromOrdinal (n : ℕ) : ℕ × ℕ × ℕ :=
  let n0 := n - 1
  let n400 := n0 / 146097
  let r400 := n0 % 146097
  let n100 := r400 / 36524
  let r100 := r400 % 36524
  let n4 := r100 / 1461
  let r4 := r100 % 1461
  let n1 := r4 / 365
  let r365 := r4 % 365
  let year := n400 * 400 + n100 * 100 + n4 * 4 + n1 + 1
  if n1 = 4 ∨ n100 = 4 then (year - 1, 12, 31)
  else
    let md := monthFromDays year 1 r365
    (year, md.1, md.2)

/-- A naive Python `datetime` as its field tuple. -/
structure PyDateTime where
  year : ℕ
  month : ℕ
  day : ℕ
  hour : ℕ
  minute : ℕ
  second : ℕ
  microsecond : ℕ
deriving DecidableEq, Repr

/-- The validation performed by the `datetime`/`date` constructor
(`ValueError` on failure). -/
def validDate (y m d : ℕ) : Prop :=
  1 ≤ y ∧ y ≤ 9999 ∧ 1 ≤ m ∧ m ≤ 12 ∧ 1 ≤ d ∧ d ≤ daysInMonth y m

instance (y m d : ℕ) : Decidable (validDate y m d) := by
  unfold validDate; infer_instance

/-- Round `n / d` to the nearest integer, ties to even — Python `round`. -/
def roundHalfEven (n d : ℕ) : ℕ :=
  let q := n / d
  let r := n % d
  if 2 * r < d then q
  else if d < 2 * r then q + 1
  else if q % 2 = 0 then q else q + 1

/-- `date(y, m, d) + timedelta` of `us` nonnegative microseconds. -/
def addToDate (y m d us : ℕ) : PyDateTime :=
  let ord := toOrdinal y m d + us / 86400000000
  let rem := us % 86400000000
  let ymd := fromOrdinal ord
  ⟨ymd.1, ymd.2.1, ymd.2.2, rem / 3600000000, rem / 60000000 % 60,
   rem / 1000000 % 60, rem % 1000000⟩

/-- The single hex digit of `"%X" % n` for `n < 16`. -/
def hexDigit (n : ℕ) : String :=
  ["0", "1", "2", "3", "4", "5", "6", "7", "8", "9",
   "A", "B", "C", "D", "E", "F"].getD n ""

/-- The extended-protocol backup record decoder of `read_backup` on one
8-byte record `CN[3] YM MDAP SECS[2] MS` (offsets `BUX_CN = 0`,
`BUX_YM = 3`, `BUX_MDAP = 4`, `BUX_SECS = 5`, `BUX_MS = 7`): card number
from `_decode_cardnr` of `0x00` plus the three CN bytes; year from the top
six bits of YM, month from its low two bits and the top two of MDAP, day
and AM/PM from MDAP; an `ErrX` tag instead of seconds when the seconds
high byte is at least `0xF0`; the month-0/month-13 `ErrDate` fixups; and
finally `datetime(year, month, day) + timedelta(seconds, microseconds)`
(`none` models the uncaught `ValueError` on an invalid date). -/
def decodeBUX (punch : List ℕ) : Option (PyDateTime × ℕ × String) :=
  match decodeCardnr (0 :: punch.take 3) with
  | none => none
  | some cardnr =>
    let ym := punch.getD 3 0
    let mdap := punch.getD 4 0
    let year0 := 2000 + (ym >>> 2)
    let month0 := ((ym &&& 3) <<< 2) + (mdap >>> 6)
    let day := (mdap &&& 63) >>> 1
    let ampm := mdap &&& 1
    let sb := punch.getD 5 0
    let esu : String × ℕ × ℕ :=
      if 0xF0 ≤ sb then ("Err" ++ hexDigit (sb &&& 15), 0, 0)
      else ("", toInt [sb, punch.getD 6 0],
            roundHalfEven (1000000 * punch.getD 7 0) 256)
    let adj : String × ℕ × ℕ :=
      if month0 = 0 then (esu.1 ++ "ErrDate", year0 - 1, month0 + 12)
      else if 12 < month0 then (esu.1 ++ "ErrDate", year0 + 1, month0 - 12)
      else (esu.1, year0, month0)
    let secs := esu.2.1 + 12 * 3600 * ampm
    if validDate adj.2.1 adj.2.2 day then
      some (addToDate adj.2.1 adj.2.2 day (secs * 1000000 + esu.2.2),
            cardnr, adj.1)
    else none

end SIR

/-- C1 counterexample: the extended-protocol backup record
`01 00 2A 5C C3 1C 20 80` does not decode to card number
`0x01002A = 65578` as scenario S6 computes: `_decode_cardnr(00 01 00 2A)`
finds low three bytes `65578 < 500000` with series byte `1 < 2`, i.e. the
SI5 branch, and returns the low two bytes `0x002A = 42`. -/
theorem c1_backup_record_s6_not_65578 :
    SIR.decodeBUX [0x01, 0x00, 0x2A, 0x5C, 0xC3, 0x1C, 0x20, 0x80] ≠
      some (⟨2023, 3, 1, 14, 0, 0, 500000⟩, 65578, "") ∧
    SIR.decodeCardnr [0x00, 0x01, 0x00, 0x2A] = some 42 := by
  constructor <;> decide

/-- C1 (amended): the extended-protocol backup record
`01 00 2A 5C C3 1C 20 80` decodes to the tuple
`(datetime 2023-03-01 14:00:00.500000, card number 42, empty error tag)`:
the date/time fields follow the YM/MDAP/SECS/MS computation of scenario S6,
but the card number is `_decode_cardnr(0x00 | CN[3])` = the low two bytes
`0x002A = 42`, because `0x01002A = 65578` is below the 500000 SI5 threshold
and the series byte `0x01` is below 2. -/
theorem c1_backup_record_s6 :
    SIR.decodeBUX [0x01, 0x00, 0x2A, 0x5C, 0xC3, 0x1C, 0x20, 0x80] =
      some (⟨2023, 3, 1, 14, 0, 0, 500000⟩, 42, "") ∧
    SIR.decodeCardnr [0x00, 0x01, 0x00, 0x2A] = some 42 := by
  constructor <;> decide

/-! ## Claim C10: `set_time` / `get_time` round trip

`set_time` encodes 7 wire bytes `YY MM DD PTD SECS_HI SECS_LO MS`; `get_time`
decodes them. The two `round` calls on float expressions
(`round(µs / 1e6 * 256)` and `round(ms_byte / 256 * 1e6)`) are modelled by
`roundHalfEven` on the exact rationals: `µs * 256` and `1e6` are exactly
representable and `µs * 256 / 1e6` is never a half-integer (`256·µs =
10^6·k + 500000` has no solution), while `ms_byte * 15625 / 4` is exact in
binary floating point, so Python's round-half-to-even on the floats agrees
with `roundHalfEven` on the integer pairs. -/

namespace SIR

/-- `date.isoweekday()`: Monday = 1 … Sunday = 7 (ordinal 1 is a Monday). -/
def isoweekday (y m d : ℕ) : ℕ := (toOrdinal y m d - 1) % 7 + 1

/-- `SIReader.set_time`'s 7-byte wire encoding of a datetime:
`%y`, month, day, `((isoweekday % 7) << 1) + hour // 12`, the in-half-day
seconds `(hour % 12)*3600 + minute*60 + second` as two big-endian bytes,
and `round(microsecond / 1e6 * 256)`. -/
def setTimeBytes (t : PyDateTime) : List ℕ :=
  let secs := t.hour % 12 * 3600 + t.minute * 60 + t.second
  [t.year % 100, t.month, t.day,
   (isoweekday t.year t.month t.day % 7) <<< 1 + t.hour / 12,
   secs / 256, secs % 256,
   roundHalfEven (t.microsecond * 256) 1000000]

/-- `SIReader.get_time`'s decoding of the 7 wire bytes: year = `b0 + 2000`,
month, day, AM/PM from bit 0 of `b3`, seconds since the half-day from
`b4 b5`, microseconds `round(b6 / 256 * 1e6)`; `none` models the
`except ValueError: return None` for an impossible date/time. -/
def getTimeDecode : List ℕ → Option PyDateTime
  | b0 :: b1 :: b2 :: b3 :: b4 :: b5 :: b6 :: _ =>
      let year := b0 + 2000
      let month := b1
      let day := b2
      let ampm := b3 &&& 1
      let second0 := toInt [b4, b5]
      let hour := ampm * 12 + second0 / 3600
      let second1 := second0 % 3600
      let minute := second1 / 60
      let second := second1 % 60
      let ms := roundHalfEven (b6 * 1000000) 256
      if validDate year month day ∧ hour < 24 ∧ minute < 60 ∧ second < 60 ∧
          ms < 1000000 then
        some ⟨year, month, day, hour, minute, second, ms⟩
      else none
  | _ => none

end SIR

/-- `roundHalfEven n d` is at most `n / d + 1`. -/
theorem roundHalfEven_le (n d : ℕ) : SIR.roundHalfEven n d ≤ n / d + 1 := by
  simp only [SIR.roundHalfEven]
  split_ifs <;> omega

/-- C10: for every valid datetime with year in 2000..2099 whose microsecond
field encodes into a single byte (`round(µs·256/10^6) ≤ 255`), decoding the
7-byte wire encoding produced by `set_time` with `get_time`'s rule recovers
the datetime up to sub-second quantisation: year, month, day, hour, minute
and second are equal, and the decoded microsecond is
`round(round(µs·256/10^6)·10^6/256)`. -/
theorem c10_time_roundtrip (t : SIR.PyDateTime)
    (hy1 : 2000 ≤ t.year) (hy2 : t.year ≤ 2099)
    (hv : SIR.validDate t.year t.month t.day)
    (hh : t.hour < 24) (hmin : t.minute < 60) (hs : t.second < 60)
    (hus : t.microsecond < 1000000)
    (hms : SIR.roundHalfEven (t.microsecond * 256) 1000000 ≤ 255) :
    SIR.getTimeDecode (SIR.setTimeBytes t) =
      some { t with microsecond := SIR.roundHalfEven (SIR.roundHalfEven (t.microsecond * 256) 1000000 * 1000000) 256 } := by
  obtain ⟨y, mo, d, h, mi, s, us⟩ := t
  simp only at hy1 hy2 hv hh hmin hs hus hms
  simp only [SIR.setTimeBytes, SIR.getTimeDecode]
  have hb3 : (SIR.isoweekday y mo d % 7) <<< 1 + h / 12 &&& 1 = h / 12 := by
    rw [Nat.shiftLeft_eq, pow_one, Nat.and_one_is_mod]
    omega
  have hsecs : SIR.toInt [(h % 12 * 3600 + mi * 60 + s) / 256,
      (h % 12 * 3600 + mi * 60 + s) % 256] = h % 12 * 3600 + mi * 60 + s := by
    simp [SIR.toInt]
    omega
  rw [hb3, hsecs]
  have hyear : y % 100 + 2000 = y := by omega
  have hhour : h / 12 * 12 + (h % 12 * 3600 + mi * 60 + s) / 3600 = h := by
    omega
  have hminute : (h % 12 * 3600 + mi * 60 + s) % 3600 / 60 = mi := by omega
  have hsecond : (h % 12 * 3600 + mi * 60 + s) % 3600 % 60 = s := by omega
  rw [hyear, hhour, hminute, hsecond]
  have hmslt :
      SIR.roundHalfEven
        (SIR.roundHalfEven (us * 256) 1000000 * 1000000) 256 < 1000000 := by
    have h1 := roundHalfEven_le (SIR.roundHalfEven (us * 256) 1000000 * 1000000) 256
    have h2 : SIR.roundHalfEven (us * 256) 1000000 * 1000000 ≤ 255000000 := by
      omega
    have h3 : SIR.roundHalfEven (us * 256) 1000000 * 1000000 / 256 ≤
        255000000 / 256 := Nat.div_le_div_right h2
    omega
  rw [if_pos ⟨hv, hh, hmin, hs, hmslt⟩]

/-- Witness for C10: 2023-03-01 14:00:00.500000 round-trips exactly
(its microsecond byte is 128, which decodes back to 500000 µs). -/
theorem c10_time_roundtrip_witness :
    SIR.getTimeDecode (SIR.setTimeBytes ⟨2023, 3, 1, 14, 0, 0, 500000⟩) =
      some ⟨2023, 3, 1, 14, 0, 0, 500000⟩ :=
  (c10_time_roundtrip ⟨2023, 3, 1, 14, 0, 0, 500000⟩ (by decide) (by decide)
    (by decide) (by decide) (by decide) (by decide) (by decide)
    (by decide)).trans (by decide)
